import Mathlib

/-!
Verification of the motleycoder code-map core and edit engine against its
natural-language specification.  All definitions below are shallow embeddings
of the Python source under `src/motleycoder/`; machine floats (mtimes, weights)
are modelled with `Int` / `ℚ`, Python dicts with association lists, and Python
sets with lists used only through membership.
-/

namespace Motleycoder

/-! ## Tag data model (`codemap/tag.py`) -/

/-- Embedding of the `Tag` dataclass (`codemap/tag.py`).  Field order and
names follow the source. -/
structure Tag where
  rel_fname : String
  line : Int
  end_line : Int
  name : String
  kind : String
  docstring : String
  fname : String
  text : String
  byte_range : Int × Int
  parent_names : List String := []
  language : Option String := none
  n_defs : Int := 0
  deriving Repr, DecidableEq

/-- Embedding of `Tag.to_tuple` (`codemap/tag.py` lines 26–37): the tuple
contains nine of the twelve fields — `end_line`, `language` and `n_defs`
are not included in the source. -/
def Tag.to_tuple (t : Tag) :
    String × Int × String × String × String × String × String × (Int × Int) × List String :=
  (t.rel_fname, t.line, t.name, t.kind, t.docstring, t.fname, t.text,
   t.byte_range, t.parent_names)

/-! ## FileGroup mtime-keyed cache (`codemap/file_group.py`, `cached_function_call`) -/

/-- The persistent tags cache: key `↦ {mtime, data}`, modelled as an
association list looked up from the front. -/
abbrev TagsCache (α : Type) := List (String × (Int × List α))

/-- Dict lookup: first binding wins (a Python dict has unique keys, so any
faithful insertion discipline preserves this). -/
def cacheLookup {α : Type} (cache : TagsCache α) (k : String) : Option (Int × List α) :=
  (cache.find? (fun e => e.1 = k)).map (·.2)

/-- Dict store `cache[k] = v`: replace the binding if present, else append. -/
def cacheStore {α : Type} (cache : TagsCache α) (k : String) (v : Int × List α) :
    TagsCache α :=
  if (cache.find? (fun e => e.1 = k)).isSome then
    cache.map (fun e => if e.1 = k then (k, v) else e)
  else cache ++ [(k, v)]

/-- Embedding of `FileGroup.cached_function_call` (`codemap/file_group.py`
lines 119–143).  `mtimeOf` models `os.path.getmtime` (`none` = file not
found); `function`/`functionName` model the callable and its `__name__`.
The returned `Bool` records whether the inner function was invoked, making
"without invoking the inner function" observable. -/
def cached_function_call {α : Type} (cache : TagsCache α)
    (mtimeOf : String → Option Int) (function : String → List α)
    (functionName : String) (fname : String) (key : Option String) :
    List α × TagsCache α × Bool :=
  match mtimeOf fname with
  | none => ([], cache, false)
  | some file_mtime =>
    let cache_key := fname ++ "::" ++ (key.getD functionName)
    match cacheLookup cache cache_key with
    | some (mtime, data) =>
      if mtime = file_mtime then (data, cache, false)
      else
        let data := function fname
        (data, cacheStore cache cache_key (file_mtime, data), true)
    | none =>
      let data := function fname
      (data, cacheStore cache cache_key (file_mtime, data), true)

/-! ## In-memory tag-graph cache (`codemap/repomap.py` `RepoMap.get_tag_graph`,
`tools/file_edit_tool.py` `FileEditTool.invalidate_tag_graphs`) -/

/-- The `RepoMap.tag_graphs` dict: file-set keys (stored as tuples in the
source) mapped to built graphs, in insertion order. -/
abbrev GraphCache (γ : Type) := List (List String × γ)

/-- Embedding of the cached-graph lookup inside `RepoMap.get_tag_graph`
(`codemap/repomap.py` lines 89–92): return the first cached graph whose key
file-set is a superset of the requested `clean_fnames`
(`not set(clean_fnames).difference(set(files))`). -/
def lookupTagGraph {γ : Type} (tag_graphs : GraphCache γ) (clean_fnames : List String) :
    Option γ :=
  (tag_graphs.find? (fun e => clean_fnames.all (fun f => f ∈ e.1))).map (·.2)

/-- Embedding of `FileEditTool.invalidate_tag_graphs`
(`tools/file_edit_tool.py` lines 80–86): if the cache is empty do nothing,
otherwise drop every entry whose key file-set contains the edited path. -/
def invalidate_tag_graphs {γ : Type} (tag_graphs : GraphCache γ) (file_path : String) :
    GraphCache γ :=
  match tag_graphs with
  | [] => []
  | _ => tag_graphs.filter (fun e => ¬ file_path ∈ e.1)

/-! ## Tag graph (`codemap/graph.py`: `build_tag_graph`, `only_defs`)

A `networkx.MultiDiGraph` over `Tag` nodes.  Node identity in networkx is
hash-plus-equality, which for the `Tag` dataclass is full field equality, so
nodes are `Tag` values; edges are `(source, target, include_in_summary?)`
triples kept as a list with multiplicity (multigraph) in insertion order.
Attribute dicts of freshly built edges are empty, hence `none`. -/

structure TagGraphE where
  nodes : List Tag
  edges : List (Tag × Tag × Option Bool)
  deriving Repr, DecidableEq

/-- `G.add_node`: a no-op when the node is already present. -/
def addNode (nodes : List Tag) (t : Tag) : List Tag :=
  if t ∈ nodes then nodes else nodes ++ [t]

/-- The `def_map` multimap of `build_tag_graph`: the set of `def` tags with
the given name (a Python `set`, modelled as the first-occurrence-deduplicated
list; theorems use it only through membership and cardinality). -/
def defMap (tags : List Tag) (name : String) : List Tag :=
  (tags.filter (fun t => decide (t.kind = "def" ∧ t.name = name))).dedup

/-- Models the in-place `tag.n_defs += 1` in the `ref` branch of
`build_tag_graph`: since nodes are shared mutable objects in the source,
every `ref` tag in the final graph carries `n_defs` incremented once per
distinct matching `def` tag. -/
def updateRefNDefs (tags : List Tag) : List Tag :=
  tags.map (fun t =>
    if t.kind = "ref" then { t with n_defs := t.n_defs + (defMap tags t.name).length }
    else t)

/-- The edges contributed by one iteration of the main loop of
`build_tag_graph` (`codemap/graph.py` lines 310–343) for tag `t`:
containment edges def→ref for refs inside the def's byte range, reference
edges ref→def for every candidate definition, and parent→child containment
edges found through `def_map`. -/
def edgesFor (tags : List Tag) (t : Tag) : List (Tag × Tag × Option Bool) :=
  (if t.kind = "def" then
    (tags.filter (fun r => decide (r.kind = "ref" ∧ r.fname = t.fname ∧
        t.byte_range.1 ≤ r.byte_range.1 ∧ r.byte_range.2 ≤ t.byte_range.2))).map
      (fun r => (t, r, (none : Option Bool)))
  else if t.kind = "ref" then
    (defMap tags t.name).map (fun d => (t, d, (none : Option Bool)))
  else []) ++
  (if t.parent_names ≠ [] then
    ((defMap tags (t.parent_names.getLastD "")).filter
        (fun c => decide (c.fname = t.fname ∧ c.parent_names = t.parent_names.dropLast))).map
      (fun c => (c, t, (none : Option Bool)))
  else [])

/-- Embedding of `build_tag_graph` (`codemap/graph.py` lines 286–345).
The first loop adds `file` tags as standalone nodes; the second adds every
tag as a node and the edges of `edgesFor`.  `n_defs` mutation is reflected by
building over `updateRefNDefs tags`. -/
def build_tag_graph (tags : List Tag) : TagGraphE :=
  let tags' := updateRefNDefs tags
  let nodes0 := tags'.foldl (fun ns t => if t.kind = "file" then addNode ns t else ns) []
  let nodes := tags'.foldl addNode nodes0
  let edges := tags'.flatMap (edgesFor tags')
  ⟨nodes, edges⟩

/-- Embedding of `only_defs` (`codemap/graph.py` lines 348–376): keep `def`
nodes; re-add each def→def edge with `include_in_summary = True`; then for
each def→non-def edge `u → v` and each out-neighbour `w` of `v` that is a
`def` *other than `u`*, add `u → w` with
`include_in_summary = (v.n_defs ≤ 2)`. -/
def only_defs (G : TagGraphE) : TagGraphE :=
  let nodes := G.nodes.filter (fun t => decide (t.kind = "def"))
  let edges1 := (G.edges.filter
      (fun e => decide (e.1.kind = "def" ∧ e.2.1.kind = "def"))).map
    (fun e => (e.1, e.2.1, some true))
  let edges2 := G.edges.flatMap (fun e =>
    if e.1.kind = "def" ∧ e.2.1.kind ≠ "def" then
      ((G.edges.filter (fun e' => decide (e'.1 = e.2.1))).map (fun e' => e'.2.1)
          |>.filter (fun w => decide (w.kind = "def" ∧ w ≠ e.1))).map
        (fun w => (e.1, w, some (decide (e.2.1.n_defs ≤ 2))))
    else [])
  ⟨nodes, edges1 ++ edges2⟩

/-! ## Ranker (`codemap/rank.py`, `rank_tags_new`; argument record
`codemap/map_args.py`)

Weights are Python floats; they are modelled exactly in `ℚ` (all weights in
play are small dyadic/decimal rationals, so float rounding never changes a
comparison made by the source on the inputs considered here). -/

/-- Embedding of the `RepoMapArgs` dataclass (`codemap/map_args.py`); the
set-valued fields are modelled as lists used through membership. -/
structure RepoMapArgs where
  chat_fnames : List String := []
  other_fnames : List String := []
  mentioned_fnames : List String := []
  mentioned_idents : List String := []
  mentioned_entities : List String := []
  search_terms : List String := []
  addPrefix : Bool := true

/-- `np.median`: sort, take the middle element, or the mean of the two middle
elements.  (On an empty list NumPy yields NaN; `rank.py` computes that value
but never uses it when the input is empty, so the junk value `0` is
unobservable.) -/
def npMedian (xs : List ℚ) : ℚ :=
  let s := xs.insertionSort (· ≤ ·)
  let n := s.length
  if n = 0 then 0
  else if n % 2 = 1 then s.getD (n / 2) 0
  else (s.getD (n / 2 - 1) 0 + s.getD (n / 2) 0) / 2

/-- Python's substring test `pat in s`, over character lists. -/
def containsSublist (pat : List Char) : List Char → Bool
  | [] => pat.isEmpty
  | c :: rest => pat.isPrefixOf (c :: rest) || containsSublist pat rest

/-- `name.split(".")[-1]`: the suffix after the last dot (the whole string
when there is no dot), written over the character list so that it evaluates
inside the kernel. -/
def lastDotComponent (s : String) : String :=
  String.mk ((s.toList.reverse.takeWhile (fun c => c ≠ '.')).reverse)

/-- `mentioned_entities_clean` (`rank.py` line 21): the last dotted component
of every mentioned entity. -/
def mentionedEntitiesClean (args : RepoMapArgs) : List String :=
  args.mentioned_entities.map lastDotComponent

/-- Embedding of `weights_from_fnames` (`rank.py` lines 182–197), expressed
as the per-tag weight it assigns: count the `def` tags per mentioned file,
normalize by the median count, and give each `def` tag in a counted file
`median / count(file)`. -/
def weights_from_fnames (G : TagGraphE) (fnames : List String) (tag : Tag) : ℚ :=
  let defFnames := (G.nodes.filter
      (fun t => decide (t.kind = "def" ∧ t.fname ∈ fnames))).map (·.fname)
  let files := defFnames.dedup
  let fnameCount := fun f => ((defFnames.filter (fun g => decide (g = f))).length : ℚ)
  let typical := npMedian (files.map fnameCount)
  if tag.fname ∈ files ∧ tag.kind = "def" then typical / fnameCount tag.fname else 0

/-- The `search_terms` processing of `rank_tags_new` (`rank.py` lines
42–52), expressed as the per-tag weight it assigns: each term matching an
exact substring of a `def` tag's text distributes
`median match-count / match-count(term)` over its matching tags. -/
def searchWeight (G : TagGraphE) (args : RepoMapArgs) (tag : Tag) : ℚ :=
  let termMatches := fun (term : String) =>
    (G.nodes.filter (fun t =>
      decide (t.kind = "def") && containsSublist term.toList t.text.toList)).dedup
  let terms := args.search_terms.dedup.filter (fun term => !(termMatches term).isEmpty)
  let typical := npMedian (terms.map (fun term => ((termMatches term).length : ℚ)))
  (terms.map (fun term =>
    if tag ∈ termMatches term then typical / ((termMatches term).length : ℚ) else 0)).sum

/-- The pre-diffusion node weight of `rank_tags_new` (`rank.py` lines
18–52): +3.0 for a `def` in a chat file whose name is a cleaned mentioned
entity, else +1.0 for a `def` whose name is a mentioned identifier; plus
0.2 × the mentioned-files file weight, 0.5 × the chat-files file weight, and
the search-term weight. -/
def baseWeight (G : TagGraphE) (args : RepoMapArgs) (tag : Tag) : ℚ :=
  (if tag.kind = "def" ∧ tag.fname ∈ args.chat_fnames ∧
      tag.name ∈ mentionedEntitiesClean args then 3
   else if tag.kind = "def" ∧ tag.name ∈ args.mentioned_idents then 1 else 0)
  + (1/5) * weights_from_fnames G args.mentioned_fnames tag
  + (1/2) * weights_from_fnames G args.chat_fnames tag
  + searchWeight G args tag

/-- The post-diffusion weight (`rank.py` lines 54–58): one diffusion pass
reading from the pre-diffusion snapshot `G1`, adding
`weight(u) × diffusion_mult` (default 0.2) along every edge `u → tag`. -/
def tagWeight (G : TagGraphE) (args : RepoMapArgs) (tag : Tag) : ℚ :=
  baseWeight G args tag +
    (1/5) * ((G.edges.filter (fun e => decide (e.2.1 = tag))).map
      (fun e => baseWeight G args e.1)).sum

/-- Embedding of `rank_tags_new` (`rank.py` lines 12–68): nodes sorted by
final weight, descending; Python's `sorted` is stable, which descending-
stable insertion by `≥` reproduces. -/
def rank_tags_new (G : TagGraphE) (args : RepoMapArgs) : List Tag :=
  G.nodes.insertionSort (fun a b => tagWeight G args a ≥ tagWeight G args b)

/-! ## Edit engine (`codemap/file_group.py` lines 206–401)

Text is modelled as `List Char` (Python strings are indexed by characters);
`String` appears only in concrete scenario statements via `String.toList`.
All functions are structural recursions so that concrete runs evaluate
inside the kernel. -/

/-- Python's whitespace set for `str.strip`/`lstrip`/`\s` (ASCII part; the
sources never contain other Unicode whitespace). -/
def pyIsSpace (c : Char) : Bool :=
  c = ' ' || c = '\t' || c = '\n' || c = '\r' || c = '\x0b' || c = '\x0c'

/-- `s.lstrip()`. -/
def pyLstrip (l : List Char) : List Char := l.dropWhile pyIsSpace

/-- `not s.strip()`: the line is whitespace-only (or empty). -/
def isBlank (l : List Char) : Bool := (pyLstrip l).all pyIsSpace

/-- `s.splitlines(keepends=True)` for `\n`-separated text. -/
def splitKeepEndsAux (acc : List Char) : List Char → List (List Char)
  | [] => if acc = [] then [] else [acc.reverse]
  | c :: rest =>
    if c = '\n' then (acc.reverse ++ ['\n']) :: splitKeepEndsAux [] rest
    else splitKeepEndsAux (c :: acc) rest

/-- `s.splitlines(keepends=True)`. -/
def splitKeepEnds (s : List Char) : List (List Char) := splitKeepEndsAux [] s

/-- `s.splitlines()` (no keepends). -/
def splitLines (s : List Char) : List (List Char) :=
  (splitKeepEnds s).map (fun l => if l.getLast? = some '\n' then l.dropLast else l)

/-- `"\n".join(lines)`. -/
def joinNL : List (List Char) → List Char
  | [] => []
  | [l] => l
  | l :: l' :: rest => l ++ '\n' :: joinNL (l' :: rest)

/-- `re.sub(r"^\d+\s*│", "", line)`: strip a leading line-number prefix. -/
def stripLineNumPrefix (l : List Char) : List Char :=
  let ds := l.takeWhile Char.isDigit
  if ds.isEmpty then l
  else
    match (l.drop ds.length).dropWhile pyIsSpace with
    | c :: rest => if c = '│' then rest else l
    | [] => l

/-- Embedding of `prepare_content_and_lines` (`file_group.py` lines
225–231): ensure a trailing newline, split keeping ends, strip line-number
prefixes, and return the rejoined content together with the lines. -/
def prepare_content_and_lines (content : List Char) : List Char × List (List Char) :=
  let content := if content ≠ [] ∧ content.getLast? ≠ some '\n' then content ++ ['\n']
                 else content
  let lines := (splitKeepEnds content).map stripLineNumPrefix
  (lines.flatten, lines)

/-- `str.replace(pat, rep)` (all non-overlapping occurrences, left to
right); the skip counter keeps the recursion structural.  Requires `pat ≠ []`
to be faithful (all callers guarantee it). -/
def replaceAllAux (pat rep : List Char) : List Char → Nat → List Char
  | [], _ => []
  | _ :: rest, n + 1 => replaceAllAux pat rep rest n
  | c :: rest, 0 =>
    if pat ≠ [] ∧ pat.isPrefixOf (c :: rest) then
      rep ++ replaceAllAux pat rep rest (pat.length - 1)
    else c :: replaceAllAux pat rep rest 0

/-- `s.replace(pat, rep)`. -/
def pyReplaceAll (s pat rep : List Char) : List Char := replaceAllAux pat rep s 0

/-- `s.replace(pat, rep, 1)`: first occurrence only. -/
def pyReplaceFirst (pat rep : List Char) : List Char → List Char
  | [] => []
  | c :: rest =>
    if pat ≠ [] ∧ pat.isPrefixOf (c :: rest) then rep ++ (c :: rest).drop pat.length
    else c :: pyReplaceFirst pat rep rest

/-- `s.count(pat)`: non-overlapping occurrence count (for `pat ≠ []`). -/
def countOccAux (pat : List Char) : List Char → Nat → Nat
  | [], _ => 0
  | _ :: rest, n + 1 => countOccAux pat rest n
  | c :: rest, 0 =>
    if pat ≠ [] ∧ pat.isPrefixOf (c :: rest) then 1 + countOccAux pat rest (pat.length - 1)
    else countOccAux pat rest 0

/-- `s.count(pat)`. -/
def pyCount (s pat : List Char) : Nat := countOccAux pat s 0

/-- Embedding of `perfect_replace_part` (`file_group.py` lines 234–236):
strategy 1, exact substring replacement. -/
def perfect_replace_part (orig search repl : List Char) : Option (List Char) :=
  if containsSublist search orig then some (pyReplaceAll orig search repl) else none

/-- Python `s[:k]` where `k` may be negative (negative indices count from
the end, clamped at zero). -/
def pySlicePrefix (s : List Char) (k : Int) : List Char :=
  if 0 ≤ k then s.take k.toNat else s.take ((s.length : Int) + k).toNat

/-- Embedding of `match_but_for_leading_whitespace` (`file_group.py` lines
239–256): all lines must agree modulo leading whitespace, and the leading
offsets of the *non-blank* window lines (the first line included, when
non-blank) must be a single string, which is returned. -/
def match_but_for_leading_whitespace (whole part : List (List Char)) :
    Option (List Char) :=
  let num := whole.length
  if (List.range num).all
      (fun i => pyLstrip (whole.getD i []) = pyLstrip (part.getD i [])) then
    let adds := (((List.range num).filter (fun i => !isBlank (whole.getD i []))).map
      (fun i => pySlicePrefix (whole.getD i [])
        ((whole.getD i []).length - ((part.getD i []).length : Int)))).dedup
    if adds.length = 1 then some (adds.getD 0 []) else none
  else none

/-- The window scan of `replace_part_with_missing_leading_whitespace`
(`file_group.py` lines 277–287): first window that matches modulo a uniform
leading-whitespace offset wins; `replace` is re-indented by the discovered
offset on its non-blank lines and spliced in place of the window. -/
def rpwmlwScan (orig search repl : List (List Char)) (num : Nat) :
    List Nat → Option (List Char)
  | [] => none
  | i :: rest =>
    match match_but_for_leading_whitespace ((orig.drop i).take num) search with
    | none => rpwmlwScan orig search repl num rest
    | some addLeading =>
      let repl' := repl.map (fun r => if !isBlank r then addLeading ++ r else r)
      some ((orig.take i ++ repl' ++ orig.drop (i + num)).flatten)

/-- Embedding of `replace_part_with_missing_leading_whitespace`
(`file_group.py` lines 259–287): strategy 2.  First outdent `search` and
`replace` by their common minimal leading whitespace, then scan the file for
a window matching modulo a uniform offset. -/
def replace_part_with_missing_leading_whitespace
    (orig search repl : List (List Char)) : Option (List Char) :=
  let leading := (search.filter (fun p => !isBlank p)).map
      (fun p => p.length - (pyLstrip p).length) ++
    (repl.filter (fun p => !isBlank p)).map (fun p => p.length - (pyLstrip p).length)
  let numLeading := leading.foldr min (leading.headD 0)
  let search := if leading ≠ [] ∧ numLeading ≠ 0 then
      search.map (fun p => if !isBlank p then p.drop numLeading else p)
    else search
  let repl := if leading ≠ [] ∧ numLeading ≠ 0 then
      repl.map (fun p => if !isBlank p then p.drop numLeading else p)
    else repl
  let num := search.length
  let windows := if num ≤ orig.length then List.range (orig.length - num + 1) else []
  rpwmlwScan orig search repl num windows

/-- The error kinds `replace_with_dotdotdots` raises as `ValueError`s:
unequal piece counts ("Unpaired ..."), differing marker lines
("Unmatched ..."), and an inner search piece matching zero times or more
than once. -/
inductive DotsError where
  | unpaired
  | unmatched
  | matchNotUnique
  deriving Repr, DecidableEq

instance {ε α : Type} [DecidableEq ε] [DecidableEq α] : DecidableEq (Except ε α) :=
  fun a b =>
    match a, b with
    | .ok x, .ok y =>
      if h : x = y then isTrue (by rw [h])
      else isFalse (by intro hh; injection hh; contradiction)
    | .error x, .error y =>
      if h : x = y then isTrue (by rw [h])
      else isFalse (by intro hh; injection hh; contradiction)
    | .ok _, .error _ => isFalse (by intro hh; injection hh)
    | .error _, .ok _ => isFalse (by intro hh; injection hh)

/-- A line matching the tail of the marker regex `^\s*\.\.\.\n`: optional
whitespace, three dots, a newline. -/
def isMarkerEnd (l : List Char) : Bool := l.dropWhile pyIsSpace = "...\n".toList

/-- `re.split(r"(^\s*\.\.\.\n)", s, flags=M|S)` for `\n`-separated text,
line by line.  Since `\s*` is greedy and `.` is not whitespace, a marker
match is a maximal run of whitespace-only lines directly followed by a
`ws* ...\n` line; `pendingBlanks` carries the current run. -/
def dotsGo (pre pendingBlanks : List Char) : List (List Char) → List (List Char)
  | [] => [pre ++ pendingBlanks]
  | l :: tl =>
    if isMarkerEnd l then pre :: (pendingBlanks ++ l) :: dotsGo [] [] tl
    else if isBlank l then dotsGo pre (pendingBlanks ++ l) tl
    else dotsGo (pre ++ pendingBlanks ++ l) [] tl

/-- The split of `replace_with_dotdotdots`: interleaved
`[text, marker, text, …, text]` pieces (always an odd number). -/
def dotsSplit (s : List Char) : List (List Char) := dotsGo [] [] (splitKeepEnds s)

/-- Split a list into its even-indexed and odd-indexed elements:
`search_pieces[0::2]` and `search_pieces[1::2]`. -/
def alternates {α : Type} : List α → List α × List α
  | [] => ([], [])
  | a :: t =>
    let (e, o) := alternates t
    (a :: o, e)

/-- The final loop of `replace_with_dotdotdots` (`file_group.py` lines
324–340): apply the non-marker piece pairs in order to the evolving
content.  Empty search and replace: skip; empty search, non-empty replace:
append (with a newline guard); otherwise the piece must occur exactly once
and is substituted once. -/
def dotsApplyPairs : List Char → List (List Char × List Char) →
    Except DotsError (List Char)
  | orig, [] => .ok orig
  | orig, (s, r) :: rest =>
    if s = [] ∧ r = [] then dotsApplyPairs orig rest
    else if s = [] then
      let orig := if orig.getLast? ≠ some '\n' then orig ++ ['\n'] else orig
      dotsApplyPairs (orig ++ r) rest
    else
      let c := pyCount orig s
      if c = 0 then .error .matchNotUnique
      else if 1 < c then .error .matchNotUnique
      else dotsApplyPairs (pyReplaceFirst s r orig) rest

/-- Embedding of `replace_with_dotdotdots` (`file_group.py` lines 290–342):
strategy 3.  `.ok none` is the no-dots case (`return None`); errors model
the `ValueError`s. -/
def replace_with_dotdotdots (orig search repl : List Char) :
    Except DotsError (Option (List Char)) :=
  let sp := dotsSplit search
  let rp := dotsSplit repl
  if sp.length ≠ rp.length then .error .unpaired
  else if sp.length = 1 then .ok none
  else
    let se := alternates sp
    let re := alternates rp
    if se.2 ≠ re.2 then .error .unmatched
    else (dotsApplyPairs orig (se.1.zip re.1)).map some

/-- Python truthiness of an optional string: present and non-empty. -/
def pyTruthy (r : Option (List Char)) : Bool :=
  match r with
  | some s => s ≠ []
  | none => false

/-- The newline normalization at the top of `replace_part`:
`if not s or s[-1] != "\n": s += "\n"`. -/
def normNL (s : List Char) : List Char :=
  if s = [] ∨ s.getLast? ≠ some '\n' then s ++ ['\n'] else s

/-- Embedding of `replace_part` (`file_group.py` lines 345–372): normalize
the blocks to end in a newline; blank search appends; then strategies 1–3
in order, a `ValueError` from strategy 3 becoming `None`. -/
def replace_part (text search repl : List Char) : Option (List Char) :=
  let search := normNL search
  let repl := normNL repl
  if isBlank search then some (text ++ repl)
  else
    let oc := prepare_content_and_lines text
    let sc := prepare_content_and_lines search
    let rc := prepare_content_and_lines repl
    let r1 := perfect_replace_part oc.1 sc.1 rc.1
    if pyTruthy r1 then r1
    else
      let r2 := replace_part_with_missing_leading_whitespace oc.2 sc.2 rc.2
      if pyTruthy r2 then r2
      else
        match replace_with_dotdotdots oc.1 sc.1 rc.1 with
        | .error _ => none
        | .ok r => r

/-! ### Close-match probe (`find_similar_lines`, `file_group.py` lines
375–401) and its `difflib.SequenceMatcher.ratio()`

`ratio()` is `2·M / (len(a)+len(b))` where `M` is the total size of the
matching blocks.  The matcher is instantiated with no junk and on short
line lists (autojunk only affects sequences of ≥ 200 elements, far beyond
any window considered here), under which the post-loop junk extension steps
of `find_longest_match` are no-ops, so the core dynamic program below is
the exact algorithm.  Float ratios are modelled exactly in `ℚ`. -/

/-- Lookup in the `j2len` row map. -/
def j2lookup (m : List (Nat × Nat)) (j : Nat) : Nat :=
  ((m.find? (fun e => e.1 = j)).map (·.2)).getD 0

/-- One row (`for i …`) of `difflib`'s `find_longest_match` dynamic program:
extend diagonal runs ending at each `j` with `b[j] = a[i]` inside
`[blo, bhi)`, recording a new best on strict improvement. -/
def flmRow {α : Type} [DecidableEq α] (b : List α) (blo bhi : Nat)
    (oldRow : List (Nat × Nat)) (best : Nat × Nat × Nat) (i : Nat) (x : α) :
    List (Nat × Nat) × (Nat × Nat × Nat) :=
  ((List.range b.length).filter
      (fun j => decide (blo ≤ j ∧ j < bhi ∧ b.get? j = some x))).foldl
    (fun acc j =>
      let k := (if j = 0 then 0 else j2lookup oldRow (j - 1)) + 1
      let best' := if k > acc.2.2.2 then (i + 1 - k, j + 1 - k, k) else acc.2
      ((j, k) :: acc.1, best'))
    ([], best)

/-- `difflib.SequenceMatcher.find_longest_match` restricted to
`a[alo:ahi]` / `b[blo:bhi]`, junk-free. -/
def find_longest_match {α : Type} [DecidableEq α] (a b : List α)
    (alo ahi blo bhi : Nat) : Nat × Nat × Nat :=
  (((List.range a.length).filter (fun i => decide (alo ≤ i ∧ i < ahi))).foldl
    (fun st i =>
      match a.get? i with
      | some x => flmRow b blo bhi st.1 st.2 i x
      | none => st)
    ([], (alo, blo, 0))).2

/-- Total matched size `M` over `get_matching_blocks`' divide-and-conquer
recursion; the fuel strictly exceeds the total interval size, so the base
case is unreachable. -/
def matchesTotal {α : Type} [DecidableEq α] (a b : List α) :
    Nat → Nat → Nat → Nat → Nat → Nat
  | 0, _, _, _, _ => 0
  | fuel + 1, alo, ahi, blo, bhi =>
    let m := find_longest_match a b alo ahi blo bhi
    if m.2.2 = 0 then 0
    else m.2.2 + matchesTotal a b fuel alo m.1 blo m.2.1 +
      matchesTotal a b fuel (m.1 + m.2.2) ahi (m.2.1 + m.2.2) bhi

/-- `difflib.SequenceMatcher(None, a, b).ratio()`. -/
def difflibRatio {α : Type} [DecidableEq α] (a b : List α) : ℚ :=
  let total := a.length + b.length
  if total = 0 then 1
  else 2 * (matchesTotal a b (total + 1) 0 a.length 0 b.length : ℚ) / total

/-- The window scan of `find_similar_lines` (`file_group.py` lines
379–388): best ratio (strict improvement), best window and its index. -/
def closeMatchState (searchLines contentLines : List (List Char)) :
    ℚ × Option (List (List Char)) × Nat :=
  let windows := if searchLines.length ≤ contentLines.length then
      List.range (contentLines.length - searchLines.length + 1)
    else []
  windows.foldl
    (fun acc i =>
      let chunk := (contentLines.drop i).take searchLines.length
      let ratio := difflibRatio searchLines chunk
      if ratio > acc.1 then (ratio, some chunk, i) else acc)
    (0, none, 0)

/-- Embedding of `find_similar_lines` (`file_group.py` lines 375–401) with
the default threshold 0.6: empty hint below threshold; the bare best window
when its end lines equal the search's; otherwise the window extended by up
to `N = 5` context lines on each side. -/
def find_similar_lines (search content : List Char) : List Char :=
  let searchLines := splitLines search
  let contentLines := splitLines content
  let st := closeMatchState searchLines contentLines
  if st.1 < 3/5 then []
  else
    let bestMatch := st.2.1.getD []
    if bestMatch.headD [] = searchLines.headD [] ∧
        bestMatch.getLastD [] = searchLines.getLastD [] then
      joinNL bestMatch
    else
      let bestEnd := min contentLines.length (st.2.2 + searchLines.length + 5)
      let bestStart := st.2.2 - 5
      joinNL ((contentLines.drop bestStart).take (bestEnd - bestStart))

/-- Embedding of `FileGroup.edit_file` (`file_group.py` lines 206–222) at
the content level (path resolution and the actual read/write abstracted
away): returns `(applied, close_match)` and the resulting file content —
unchanged unless the patch produced a non-empty content different from the
current one. -/
def edit_file_content (fileContent search repl : List Char) :
    (Bool × Option (List Char)) × List Char :=
  match replace_part fileContent search repl with
  | some nc =>
    if nc ≠ [] ∧ nc ≠ fileContent then ((true, none), nc)
    else ((false, some (find_similar_lines search fileContent)), fileContent)
  | none => ((false, some (find_similar_lines search fileContent)), fileContent)

/-! ## RepoMap binary-search packing (`codemap/repomap.py`:
`RepoMap.find_best_tag_tree` lines 145–177, `RepoMap.get_repo_map` lines
50–80)

`to_tree` (the renderer, `RenderCode.to_tree`) and `token_count` (the
injected tokenizer) are function parameters, matching their injected role in
the source; ranking (`get_ranked_tags`) is likewise abstracted as the
`ranked_tags` input.  `lower_bound`/`upper_bound`/`middle` are Python ints,
modelled as `Int` (`upper_bound` legitimately becomes `-1` when `middle`
reaches 0); Python's `//` is `Int.fdiv`. -/

/-- The floor-midpoint of a nonempty integer interval stays inside it. -/
theorem fdiv_half_between {a b : Int} (h : a ≤ b) :
    a ≤ (a + b).fdiv 2 ∧ (a + b).fdiv 2 ≤ b := by
  rw [Int.fdiv_eq_ediv _ (by norm_num)]
  omega

set_option linter.unusedVariables false in
/-- The `while lower_bound ≤ upper_bound` loop of `find_best_tag_tree`:
render the top `middle` tags, count tokens, record the render as best when
`max_map_tokens > num_tokens > best_tree_tokens`, move `lower_bound` or
`upper_bound` past `middle` depending on feasibility, recompute
`middle = (lower_bound + upper_bound) // 2`, and return the recorded best on
exit.  The proof argument `hm` carries the invariant `lo ≤ middle ≤ hi`
(whenever the loop continues) that both callers establish and every
iteration preserves; it exists only for termination and does not influence
the computed value. -/
def findBestLoop {α : Type} (to_tree : List α → String) (token_count : String → Nat)
    (max_map_tokens : Nat) (ranked_tags : List α) (lo hi middle : Int)
    (best : Option String) (best_tokens : Nat)
    (hm : lo ≤ hi → lo ≤ middle ∧ middle ≤ hi) : Option String :=
  if h : lo ≤ hi then
    let tree := to_tree (ranked_tags.take middle.toNat)
    let num_tokens := token_count tree
    let best' := if max_map_tokens > num_tokens ∧ num_tokens > best_tokens then some tree
                 else best
    let best_tokens' := if max_map_tokens > num_tokens ∧ num_tokens > best_tokens then
        num_tokens
      else best_tokens
    if num_tokens < max_map_tokens then
      findBestLoop to_tree token_count max_map_tokens ranked_tags (middle + 1) hi
        ((middle + 1 + hi).fdiv 2) best' best_tokens'
        (fun h' => fdiv_half_between h')
    else
      findBestLoop to_tree token_count max_map_tokens ranked_tags lo (middle - 1)
        ((lo + (middle - 1)).fdiv 2) best' best_tokens'
        (fun h' => fdiv_half_between h')
  else best
termination_by (hi + 1 - lo).toNat
decreasing_by
  · have := hm h
    omega
  · have := hm h
    omega

/-- Embedding of `RepoMap.find_best_tag_tree` (`repomap.py` lines 145–177):
`lo = 0`, `hi = N`, first probe `middle = min(max_map_tokens // 25, N)`. -/
def find_best_tag_tree {α : Type} (to_tree : List α → String)
    (token_count : String → Nat) (max_map_tokens : Nat) (ranked_tags : List α) :
    Option String :=
  let num_tags := ranked_tags.length
  findBestLoop to_tree token_count max_map_tokens ranked_tags 0 (num_tags : Int)
    ((min (max_map_tokens / 25) num_tags : Nat) : Int) none 0
    (fun _ => ⟨by exact_mod_cast Nat.zero_le _, by exact_mod_cast min_le_right _ _⟩)

/-- Embedding of `RepoMap.get_repo_map` (`repomap.py` lines 50–80) with the
ranking stage abstracted into `ranked_tags`: `None` on a zero budget, empty
`other_fnames`, or an empty/None packing result; otherwise the optional
prefix (when configured and requested) is prepended.  (The
`RecursionError` guard is outside a pure embedding; the injected
`token_count` recount on line 70 only feeds logging.) -/
def get_repo_map {α : Type} (to_tree : List α → String) (token_count : String → Nat)
    (max_map_tokens : Nat) (repoContentPrefix : Option String)
    (other_fnames : List String) (addPrefix : Bool) (ranked_tags : List α) :
    Option String :=
  if max_map_tokens ≤ 0 then none
  else if other_fnames = [] then none
  else
    match find_best_tag_tree to_tree token_count max_map_tokens ranked_tags with
    | none => none
    | some files_listing =>
      if files_listing = "" then none
      else
        some ((if addPrefix then repoContentPrefix.getD "" else "") ++ files_listing)

/-- The statement of claim C2, as written, about a graph `G`: the defs-only
projection retains exactly the `def` nodes, copies every def→def edge
verbatim (same attributes), and for every edge from a def `u` to a ref `v`
and every def `w` that `v` references adds `u → w` with
`include_in_summary = (v.n_defs ≤ 2)`. -/
def ClaimC2At (G : TagGraphE) : Prop :=
  (only_defs G).nodes = G.nodes.filter (fun t => decide (t.kind = "def")) ∧
  (∀ e ∈ G.edges, e.1.kind = "def" → e.2.1.kind = "def" → e ∈ (only_defs G).edges) ∧
  (∀ e ∈ G.edges, e.1.kind = "def" → e.2.1.kind = "ref" →
    ∀ e' ∈ G.edges, e'.1 = e.2.1 → e'.2.1.kind = "def" →
      (e.1, e'.2.1, some (decide (e.2.1.n_defs ≤ 2))) ∈ (only_defs G).edges)

instance (G : TagGraphE) : Decidable (ClaimC2At G) := by
  unfold ClaimC2At; infer_instance

end Motleycoder

namespace Motleycoder

/-! ## Theorems: C9 (Tag hashing), C5 (cache entry point), C3 (invalidation) -/

/-- Concrete tag used in counterexamples: a definition at lines 0–5. -/
def tagEndLine5 : Tag :=
  { rel_fname := "a.py", line := 0, end_line := 5, name := "f", kind := "def",
    docstring := "", fname := "/repo/a.py", text := "def f(): pass",
    byte_range := (0, 13), parent_names := [], language := some "python", n_defs := 0 }

/-- Same tag but with `end_line = 7`. -/
def tagEndLine7 : Tag := { tagEndLine5 with end_line := 7 }

/-- C9 counterexample: `Tag.__hash__` hashes `hash(self.to_tuple())`, but
`to_tuple` omits `end_line` (likewise `language` and `n_defs`), so two tags
that differ in `end_line` feed the very same tuple to the hash — the hash
input does not include every field. -/
theorem tag_hash_ignores_end_line :
    tagEndLine5.to_tuple = tagEndLine7.to_tuple ∧ tagEndLine5 ≠ tagEndLine7 ∧
      tagEndLine5.end_line ≠ tagEndLine7.end_line := by
  refine ⟨rfl, ?_, by decide⟩
  intro h
  have : tagEndLine5.end_line = tagEndLine7.end_line := by rw [h]
  simp [tagEndLine5, tagEndLine7] at this

/-- C9 (amended): the hash input `Tag.to_tuple` is exactly the nine fields
`rel_fname, line, name, kind, docstring, fname, text, byte_range,
parent_names`; two tags agree on `to_tuple` (hence hash equal, for any hash
function of the tuple) iff they agree on those nine fields — `end_line`,
`language` and `n_defs` do not enter. -/
theorem tag_to_tuple_eq_iff (t₁ t₂ : Tag) :
    t₁.to_tuple = t₂.to_tuple ↔
      t₁.rel_fname = t₂.rel_fname ∧ t₁.line = t₂.line ∧ t₁.name = t₂.name ∧
      t₁.kind = t₂.kind ∧ t₁.docstring = t₂.docstring ∧ t₁.fname = t₂.fname ∧
      t₁.text = t₂.text ∧ t₁.byte_range = t₂.byte_range ∧
      t₁.parent_names = t₂.parent_names := by
  unfold Tag.to_tuple
  constructor
  · intro h
    exact ⟨congrArg (·.1) h, congrArg (·.2.1) h, congrArg (·.2.2.1) h,
      congrArg (·.2.2.2.1) h, congrArg (·.2.2.2.2.1) h, congrArg (·.2.2.2.2.2.1) h,
      congrArg (·.2.2.2.2.2.2.1) h, congrArg (·.2.2.2.2.2.2.2.1) h,
      congrArg (·.2.2.2.2.2.2.2.2) h⟩
  · rintro ⟨h1, h2, h3, h4, h5, h6, h7, h8, h9⟩
    rw [h1, h2, h3, h4, h5, h6, h7, h8, h9]

/-- C5: the cache entry-point contract of `cached_function_call`:
(1) if the mtime is unavailable it returns an empty list, touching neither
the cache nor the inner function; (2) on a key hit whose stored mtime equals
the current one it returns the stored payload without invoking the inner
function; (3) otherwise it calls `fn(path)`, stores `{mtime, result}` under
`<path>::<key or fn.name>`, and returns the result. -/
theorem cached_function_call_contract {α : Type} (cache : TagsCache α)
    (mtimeOf : String → Option Int) (function : String → List α)
    (functionName fname : String) (key : Option String) :
    (mtimeOf fname = none →
      cached_function_call cache mtimeOf function functionName fname key =
        ([], cache, false)) ∧
    (∀ m data, mtimeOf fname = some m →
      cacheLookup cache (fname ++ "::" ++ (key.getD functionName)) = some (m, data) →
      cached_function_call cache mtimeOf function functionName fname key =
        (data, cache, false)) ∧
    (∀ m, mtimeOf fname = some m →
      (∀ mt data,
        cacheLookup cache (fname ++ "::" ++ (key.getD functionName)) = some (mt, data) →
        mt ≠ m) →
      cached_function_call cache mtimeOf function functionName fname key =
        (function fname,
         cacheStore cache (fname ++ "::" ++ (key.getD functionName))
           (m, function fname), true)) := by
  refine ⟨?_, ?_, ?_⟩
  · intro h
    simp [cached_function_call, h]
  · intro m data hm hl
    simp [cached_function_call, hm, hl]
  · intro m hm hmiss
    cases hl : cacheLookup cache (fname ++ "::" ++ (key.getD functionName)) with
    | none => simp [cached_function_call, hm, hl]
    | some p =>
      have hne : p.1 ≠ m := hmiss p.1 p.2 (by rw [hl])
      simp [cached_function_call, hm, hl, hne]

/-- Witness for C5 on concrete data: an empty cache, a file with mtime 10. -/
theorem cached_function_call_contract_witness :
    cached_function_call ([] : TagsCache Nat) (fun _ => some 10) (fun _ => [1, 2])
        "get_tags_raw_function" "/repo/a.py" none =
      ([1, 2], [("/repo/a.py::get_tags_raw_function", (10, [1, 2]))], true) := by
  have h := (cached_function_call_contract [] (fun _ => some 10) (fun _ => [1, 2])
      "get_tags_raw_function" "/repo/a.py" none).2.2 10 rfl
    (by intro mt data h; simp [cacheLookup] at h)
  rw [h]
  rfl

/-- C3: after a path `p` is invalidated (which `FileEditTool.edit_file_inner`
does on every successful edit), the cached-graph lookup over any file set
containing `p` cannot return any cached graph at all — in particular not the
stale one: every surviving cache entry lacks `p`, while a hit requires the
entry's key to contain the whole query set. -/
theorem invalidate_then_lookup_misses {γ : Type} (tag_graphs : GraphCache γ)
    (p : String) (query : List String) (G : γ) (hp : p ∈ query) :
    lookupTagGraph (invalidate_tag_graphs tag_graphs p) query ≠ some G := by
  intro hhit
  unfold lookupTagGraph at hhit
  rcases Option.map_eq_some'.mp hhit with ⟨e, hfind, _⟩
  have hquery := List.find?_some hfind
  have hpe : p ∈ e.1 := by
    have := List.all_eq_true.mp hquery p hp
    exact of_decide_eq_true this
  have hmem : e ∈ invalidate_tag_graphs tag_graphs p := List.mem_of_find?_eq_some hfind
  unfold invalidate_tag_graphs at hmem
  cases tag_graphs with
  | nil => simp at hmem
  | cons a l =>
    have := List.of_mem_filter hmem
    simp at this
    exact this hpe

/-- Witness for C3: a one-entry cache holding a graph over `{a.py, b.py}`;
after editing `a.py`, a lookup over `{a.py}` no longer returns it. -/
theorem invalidate_then_lookup_misses_witness :
    lookupTagGraph (invalidate_tag_graphs [(["a.py", "b.py"], 0)] "a.py") ["a.py"] ≠
      some 0 :=
  invalidate_then_lookup_misses [(["a.py", "b.py"], (0 : Nat))] "a.py" ["a.py"] 0
    (by decide)

/-! ## Theorems: C2 (defs-only projection) -/

/-- A class-level definition `O` spanning bytes 0–50 of `a.py`. -/
def defOuter : Tag :=
  { rel_fname := "a.py", line := 0, end_line := 4, name := "O", kind := "def",
    docstring := "", fname := "a.py", text := "class O: ...",
    byte_range := (0, 50), parent_names := [] }

/-- A method `I` nested inside `O`. -/
def defInner : Tag :=
  { rel_fname := "a.py", line := 1, end_line := 2, name := "I", kind := "def",
    docstring := "", fname := "a.py", text := "def I(self): ...",
    byte_range := (10, 20), parent_names := ["O"] }

/-- A recursive function `f` spanning bytes 60–72 of `a.py`. -/
def defRecF : Tag :=
  { rel_fname := "a.py", line := 6, end_line := 7, name := "f", kind := "def",
    docstring := "", fname := "a.py", text := "def f(): f()",
    byte_range := (60, 72), parent_names := [] }

/-- The reference to `f` inside `f`'s own body. -/
def refRecF : Tag :=
  { rel_fname := "a.py", line := 7, end_line := 7, name := "f", kind := "ref",
    docstring := "", fname := "a.py", text := "f",
    byte_range := (69, 70), parent_names := [] }

/-- The same reference as it sits in the built graph, where the graph build
has mutated its `n_defs` to the number of candidate definitions (one). -/
def refRecFBuilt : Tag := { refRecF with n_defs := 1 }

/-- The concrete graph built from the four tags above. -/
def graphC2 : TagGraphE := build_tag_graph [defOuter, defInner, defRecF, refRecF]

/-- C2 counterexample: on the graph of a recursive function, `only_defs`
violates the claim as stated.  Concretely (a) the def→def containment edge
`O → I` is *not* copied verbatim — its empty attribute dict gains
`include_in_summary = True` — and (b) although `def f` has an edge to
`ref f` and that ref references `def f` itself, the promoted self-edge
`f → f` is *not* added, because the source skips `v_desc != u`. -/
theorem only_defs_claim_counterexample :
    ¬ ClaimC2At graphC2 ∧
    ((defOuter, defInner, (none : Option Bool)) ∈ graphC2.edges ∧
      (defOuter, defInner, (none : Option Bool)) ∉ (only_defs graphC2).edges) ∧
    ((defRecF, refRecFBuilt, (none : Option Bool)) ∈ graphC2.edges ∧
      (refRecFBuilt, defRecF, (none : Option Bool)) ∈ graphC2.edges ∧
      (defRecF, defRecF, some true) ∉ (only_defs graphC2).edges) := by
  decide

/-- C2 (amended): for every graph, `only_defs` retains exactly the `def`
nodes; an edge `(u, w, d)` is in the projection iff either it is a def→def
edge of the original graph with `include_in_summary` set to `True` (the
endpoints are copied, the attribute is overwritten), or it is a promoted
two-hop edge: `u` is a def with an edge to some non-def `v`, `v` has an edge
to the def `w`, `w ≠ u`, and `d = (v.n_defs ≤ 2)`. -/
theorem only_defs_characterization (G : TagGraphE) :
    (only_defs G).nodes = G.nodes.filter (fun t => decide (t.kind = "def")) ∧
    ∀ u w d, ((u, w, d) ∈ (only_defs G).edges ↔
      (u.kind = "def" ∧ w.kind = "def" ∧ d = some true ∧
        ∃ d₀, (u, w, d₀) ∈ G.edges) ∨
      (u.kind = "def" ∧ w.kind = "def" ∧ w ≠ u ∧
        ∃ v d₁ d₂, (u, v, d₁) ∈ G.edges ∧ v.kind ≠ "def" ∧ (v, w, d₂) ∈ G.edges ∧
          d = some (decide (v.n_defs ≤ 2)))) := by
  refine ⟨rfl, ?_⟩
  intro u w d
  unfold only_defs
  simp only [List.mem_append, List.mem_map, List.mem_filter, List.mem_flatMap,
    decide_eq_true_eq]
  constructor
  · rintro (⟨e, ⟨he, hu, hw⟩, heq⟩ | ⟨e, he, hin⟩)
    · obtain ⟨h1, h2, h3⟩ : e.1 = u ∧ e.2.1 = w ∧ (some true : Option Bool) = d :=
        ⟨congrArg (·.1) heq, congrArg (·.2.1) heq, congrArg (·.2.2) heq⟩
      subst h1; subst h2; subst h3
      exact Or.inl ⟨hu, hw, rfl, e.2.2, he⟩
    · by_cases hcond : e.1.kind = "def" ∧ e.2.1.kind ≠ "def"
      · rw [if_pos hcond] at hin
        simp only [List.mem_map, List.mem_filter, decide_eq_true_eq] at hin
        obtain ⟨w', ⟨⟨e', ⟨hem, hsrc⟩, hw'⟩, hwdef, hne⟩, heq⟩ := hin
        obtain ⟨h1, h2, h3⟩ :
            e.1 = u ∧ w' = w ∧ (some (decide (e.2.1.n_defs ≤ 2)) : Option Bool) = d :=
          ⟨congrArg (·.1) heq, congrArg (·.2.1) heq, congrArg (·.2.2) heq⟩
        subst h1; subst h2; subst h3
        refine Or.inr ⟨hcond.1, hwdef, hne, e.2.1, e.2.2, e'.2.2, he, hcond.2, ?_, rfl⟩
        rw [← hsrc, ← hw']
        exact hem
      · rw [if_neg hcond] at hin
        simp at hin
  · rintro (⟨hu, hw, rfl, d₀, hd₀⟩ | ⟨hu, hw, hne, v, d₁, d₂, h₁, hv, h₂, rfl⟩)
    · exact Or.inl ⟨(u, w, d₀), ⟨hd₀, hu, hw⟩, rfl⟩
    · refine Or.inr ⟨(u, v, d₁), h₁, ?_⟩
      rw [if_pos ⟨hu, hv⟩]
      simp only [List.mem_map, List.mem_filter, decide_eq_true_eq]
      exact ⟨w, ⟨⟨(v, w, d₂), ⟨h₂, rfl⟩, rfl⟩, hw, hne⟩, rfl⟩

/-! ## Theorems: C4 (ranking boost) -/

/-- A `def` tag `A` living in the chat file `chat.py`. -/
def tagA : Tag :=
  { rel_fname := "chat.py", line := 0, end_line := 1, name := "A", kind := "def",
    docstring := "", fname := "/repo/chat.py", text := "def A(): pass",
    byte_range := (0, 13), parent_names := [] }

/-- A `def` tag `B` living elsewhere, unmentioned. -/
def tagB : Tag :=
  { rel_fname := "other.py", line := 0, end_line := 1, name := "B", kind := "def",
    docstring := "", fname := "/repo/other.py", text := "def B(): pass",
    byte_range := (0, 13), parent_names := [] }

/-- A two-node graph listing `B` before `A` (so that the ranking must really
reorder), with no edges into `B`. -/
def graphC4 : TagGraphE := ⟨[tagB, tagA], []⟩

/-- Argument record for scenario S4: `A`'s file is the chat file and `A` is
the only mentioned entity. -/
def argsC4 : RepoMapArgs :=
  { chat_fnames := ["/repo/chat.py"], mentioned_entities := ["A"] }

/-- Evaluation of `A`'s final weight in scenario S4: the 3.0 entity boost
plus 0.5 × its chat-file weight. -/
theorem tagWeight_evalA : tagWeight graphC4 argsC4 tagA = 7/2 := by
  simp [tagWeight, baseWeight, weights_from_fnames, searchWeight, npMedian,
    mentionedEntitiesClean, lastDotComponent, graphC4, argsC4, tagA, tagB,
    List.insertionSort, List.orderedInsert]
  norm_num

/-- Evaluation of `B`'s final weight in scenario S4: zero. -/
theorem tagWeight_evalB : tagWeight graphC4 argsC4 tagB = 0 := by
  simp [tagWeight, baseWeight, weights_from_fnames, searchWeight, npMedian,
    mentionedEntitiesClean, lastDotComponent, graphC4, argsC4, tagA, tagB,
    List.insertionSort, List.orderedInsert]

/-- The ranking in scenario S4 places `A` first even though the node list
has `B` first. -/
theorem rank_order_evalC4 : rank_tags_new graphC4 argsC4 = [tagA, tagB] := by
  unfold rank_tags_new
  show List.insertionSort _ graphC4.nodes = _
  have hn : graphC4.nodes = [tagB, tagA] := rfl
  rw [hn]
  simp [List.insertionSort, List.orderedInsert, tagWeight_evalA, tagWeight_evalB]

/-- C4: in the default weight-and-diffuse ranker, (i) every `def` tag in a
chat file whose bare name appears in the mentioned-entity set (membership is
tested against the last dotted component of each mentioned entity, which the
bare name of a mentioned undotted entity satisfies) has pre-diffusion weight
`3.0 +` the file- and search-term contributions — the `+1.0`
mentioned-identifier branch is an `elif` and is not also added; and (ii) in
the concrete S4 scenario, `rank_tags_new` orders `A` strictly above `B`,
with strictly greater final weight. -/
theorem rank_boost (G : TagGraphE) (args : RepoMapArgs) (tag : Tag)
    (hdef : tag.kind = "def") (hchat : tag.fname ∈ args.chat_fnames)
    (hment : tag.name ∈ mentionedEntitiesClean args) :
    baseWeight G args tag =
      3 + (1/5) * weights_from_fnames G args.mentioned_fnames tag
        + (1/2) * weights_from_fnames G args.chat_fnames tag
        + searchWeight G args tag ∧
    rank_tags_new graphC4 argsC4 = [tagA, tagB] ∧
    tagWeight graphC4 argsC4 tagA > tagWeight graphC4 argsC4 tagB := by
  refine ⟨?_, rank_order_evalC4, by rw [tagWeight_evalA, tagWeight_evalB]; norm_num⟩
  unfold baseWeight
  rw [if_pos ⟨hdef, hchat, hment⟩]

/-- Witness for C4 at the S4 instance: `A` itself satisfies the boost
hypotheses, and its pre-diffusion weight is exactly `3.5`
(`3.0` entity boost plus `0.5 ×` the chat-file weight `1`). -/
theorem rank_boost_witness :
    baseWeight graphC4 argsC4 tagA =
      3 + (1/5) * weights_from_fnames graphC4 argsC4.mentioned_fnames tagA
        + (1/2) * weights_from_fnames graphC4 argsC4.chat_fnames tagA
        + searchWeight graphC4 argsC4 tagA ∧
    baseWeight graphC4 argsC4 tagA = 7/2 :=
  ⟨(rank_boost graphC4 argsC4 tagA (by decide) (by decide)
      (by simp [mentionedEntitiesClean, lastDotComponent, argsC4, tagA])).1,
   by
    simp [baseWeight, weights_from_fnames, searchWeight, npMedian,
      mentionedEntitiesClean, lastDotComponent, graphC4, argsC4, tagA, tagB,
      List.insertionSort, List.orderedInsert]
    norm_num⟩

/-! ## Theorems: C6 (ellipsis errors & atomicity), C7 (strategy-2 first
line), C8 (close-match probe), C10 (content-preserving patch) -/

/-- C6: ellipsis-edit error handling and atomicity.
(i) Unequal piece counts after splitting on `...` markers raise the
distinct "Unpaired" error; (ii) any `ValueError` from the ellipsis strategy
is caught by `replace_part`, which returns `None` when strategies 1 and 2
also failed; (iii) a `None` from `replace_part` leaves the file content
unchanged and reports failure; (iv)/(v) an inner search piece occurring
zero times, or more than once, raises the match-count error (with no file
change, by (ii)+(iii)). -/
theorem dots_edit_error_atomicity :
    (∀ orig search repl : List Char,
      (dotsSplit search).length ≠ (dotsSplit repl).length →
        replace_with_dotdotdots orig search repl = .error .unpaired) ∧
    (∀ (text search repl : List Char) (e : DotsError),
      isBlank (normNL search) = false →
      pyTruthy (perfect_replace_part (prepare_content_and_lines text).1
        (prepare_content_and_lines (normNL search)).1
        (prepare_content_and_lines (normNL repl)).1) = false →
      pyTruthy (replace_part_with_missing_leading_whitespace
        (prepare_content_and_lines text).2
        (prepare_content_and_lines (normNL search)).2
        (prepare_content_and_lines (normNL repl)).2) = false →
      replace_with_dotdotdots (prepare_content_and_lines text).1
        (prepare_content_and_lines (normNL search)).1
        (prepare_content_and_lines (normNL repl)).1 = .error e →
      replace_part text search repl = none) ∧
    (∀ text search repl : List Char, replace_part text search repl = none →
      edit_file_content text search repl =
        ((false, some (find_similar_lines search text)), text)) ∧
    replace_with_dotdotdots ("q\n".toList) ("x\n...\ny\n".toList)
      ("x2\n...\ny\n".toList) = .error .matchNotUnique ∧
    replace_with_dotdotdots ("x\nx\n".toList) ("x\n...\ny\n".toList)
      ("x2\n...\ny\n".toList) = .error .matchNotUnique := by
  refine ⟨?_, ?_, ?_, by decide, by decide⟩
  · intro orig search repl h
    simp only [replace_with_dotdotdots]
    rw [if_pos h]
  · intro text search repl e hblank h1 h2 h3
    simp [replace_part, hblank, h1, h2, h3]
  · intro text search repl h
    simp [edit_file_content, h]

/-- Witness for C6: an unpaired-marker edit (`search` has one `...` marker,
`replace` none) on file content `q\n` raises the distinct error and leaves
the content unchanged, end to end. -/
theorem dots_edit_error_atomicity_witness :
    replace_part ("q\n".toList) ("x\n...\ny\n".toList) ("y\n".toList) = none ∧
    edit_file_content ("q\n".toList) ("x\n...\ny\n".toList) ("y\n".toList) =
      ((false, some (find_similar_lines ("x\n...\ny\n".toList) ("q\n".toList))),
       "q\n".toList) := by
  have h3 := dots_edit_error_atomicity.1
    (prepare_content_and_lines ("q\n".toList)).1
    (prepare_content_and_lines (normNL ("x\n...\ny\n".toList))).1
    (prepare_content_and_lines (normNL ("y\n".toList))).1 (by decide)
  have hrp := dots_edit_error_atomicity.2.1 ("q\n".toList) ("x\n...\ny\n".toList)
    ("y\n".toList) .unpaired (by decide) (by decide) (by decide) h3
  exact ⟨hrp, dots_edit_error_atomicity.2.2.1 _ _ _ hrp⟩

/-- C7: strategy 2 finds a match for a search block whose first line alone
lost its leading whitespace while the remaining lines are offset uniformly.
File `"    \n  x = 1\n  y = 2\n"`, search `"\nx = 1\ny = 2\n"`: the first
(whitespace-only) line lost all 4 leading characters, the remaining lines a
uniform 2.  Blank lines are exempt from the uniform-offset requirement
(`file_group.py` line 250), so the recovered offset is the other lines'
`"  "`, `replace` is re-indented by it (blank lines kept verbatim), and the
edit applies.  (For a *non-blank* first line the offset-uniformity check
does include the first line.) -/
theorem ws_first_line_asymmetry :
    match_but_for_leading_whitespace
        (splitKeepEnds ("    \n  x = 1\n  y = 2\n".toList))
        (splitKeepEnds ("\nx = 1\ny = 2\n".toList)) = some ("  ".toList) ∧
    ("    \n".toList).length - (pyLstrip ("    \n".toList)).length + 3 =
      ("\n".toList).length - (pyLstrip ("\n".toList)).length + 3 + 4 ∧
    replace_part_with_missing_leading_whitespace
        (splitKeepEnds ("    \n  x = 1\n  y = 2\n".toList))
        (splitKeepEnds ("\nx = 1\ny = 2\n".toList))
        (splitKeepEnds ("\nx = 3\ny = 2\n".toList)) =
      some ("\n  x = 3\n  y = 2\n".toList) ∧
    edit_file_content ("    \n  x = 1\n  y = 2\n".toList) ("\nx = 1\ny = 2\n".toList)
        ("\nx = 3\ny = 2\n".toList) =
      ((true, none), "\n  x = 3\n  y = 2\n".toList) := by
  decide

/-- The search lines of scenario S3. -/
def s3SearchLines : List (List Char) := ["fooo".toList, "bar".toList, "baz".toList]

/-- The content lines of scenario S3. -/
def s3ContentLines : List (List Char) := ["foo".toList, "bar".toList, "baz".toList]

/-- The S3 similarity ratio: the matching blocks are `["bar", "baz"]`
(size 2), so `ratio = 2·2/6 = 2/3 ≥ 0.6`. -/
theorem s3_ratio : difflibRatio s3SearchLines s3ContentLines = 2/3 := by
  have hM : matchesTotal s3SearchLines s3ContentLines 7 0 3 0 3 = 2 := by decide
  have hl1 : s3SearchLines.length = 3 := by decide
  have hl2 : s3ContentLines.length = 3 := by decide
  simp only [difflibRatio, hl1, hl2]
  norm_num [hM]

/-- The S3 window scan: the single window wins with ratio `2/3`. -/
theorem s3_state : closeMatchState s3SearchLines s3ContentLines =
    (2/3, some s3ContentLines, 0) := by
  have hl1 : s3SearchLines.length = 3 := by decide
  have hl2 : s3ContentLines.length = 3 := by decide
  have htake : List.take 3 s3ContentLines = s3ContentLines := by decide
  simp only [closeMatchState, hl1, hl2]
  norm_num [List.range_succ, htake, s3_ratio]

/-- The S3 close-match hint: ratio `2/3` passes the `0.6` threshold, the
first window line `foo` differs from the search's `fooo`, so the window is
returned with (here trivial) context extension. -/
theorem s3_hint :
    find_similar_lines ("fooo\nbar\nbaz\n".toList) ("foo\nbar\nbaz\n".toList) =
      "foo\nbar\nbaz".toList := by
  have hsl : splitLines ("fooo\nbar\nbaz\n".toList) = s3SearchLines := by decide
  have hcl : splitLines ("foo\nbar\nbaz\n".toList) = s3ContentLines := by decide
  simp only [find_similar_lines, hsl, hcl, s3_state]
  rw [if_neg (by norm_num)]
  decide

/-- C8: the close-match probe.  (i) When the best window ratio is below
0.6 the hint is empty; (ii) otherwise the hint is either the bare best
window (when its end lines equal the search's) or the best window extended
by at most 5 context lines on each side; (iii) in scenario S3 (file
`foo\nbar\nbaz\n`, search `fooo\nbar\nbaz\n`, all strategies failing),
`edit_file` returns `(false, "foo\nbar\nbaz")` with the file unchanged. -/
theorem close_match_probe :
    (∀ search content : List Char,
      (closeMatchState (splitLines search) (splitLines content)).1 < 3/5 →
        find_similar_lines search content = []) ∧
    (∀ search content : List Char,
      ¬ (closeMatchState (splitLines search) (splitLines content)).1 < 3/5 →
      find_similar_lines search content =
          joinNL ((closeMatchState (splitLines search) (splitLines content)).2.1.getD []) ∨
        find_similar_lines search content =
          joinNL (((splitLines content).drop
              ((closeMatchState (splitLines search) (splitLines content)).2.2 - 5)).take
            (min (splitLines content).length
                ((closeMatchState (splitLines search) (splitLines content)).2.2 +
                  (splitLines search).length + 5) -
              ((closeMatchState (splitLines search) (splitLines content)).2.2 - 5)))) ∧
    edit_file_content ("foo\nbar\nbaz\n".toList) ("fooo\nbar\nbaz\n".toList)
        ("quux\n".toList) =
      ((false, some ("foo\nbar\nbaz".toList)), "foo\nbar\nbaz\n".toList) := by
  refine ⟨?_, ?_, ?_⟩
  · intro search content h
    simp only [find_similar_lines]
    rw [if_pos h]
  · intro search content h
    simp only [find_similar_lines]
    rw [if_neg h]
    by_cases hc : ((closeMatchState (splitLines search) (splitLines content)).2.1.getD
        []).headD [] = (splitLines search).headD [] ∧
      ((closeMatchState (splitLines search) (splitLines content)).2.1.getD
        []).getLastD [] = (splitLines search).getLastD []
    · exact Or.inl (by rw [if_pos hc])
    · exact Or.inr (by rw [if_neg hc])
  · have hrp : replace_part ("foo\nbar\nbaz\n".toList) ("fooo\nbar\nbaz\n".toList)
        ("quux\n".toList) = none := by decide
    simp only [edit_file_content, hrp, s3_hint]

/-- Witness for C8's hypotheses: search `zzz\n` against content `a\n`
scores ratio 0, below the threshold, so the hint is empty; and in the S3
configuration the above-threshold branch takes the extended-window form. -/
theorem close_match_probe_witness :
    find_similar_lines ("zzz\n".toList) ("a\n".toList) = [] ∧
    (find_similar_lines ("fooo\nbar\nbaz\n".toList) ("foo\nbar\nbaz\n".toList) =
        joinNL ((closeMatchState (splitLines ("fooo\nbar\nbaz\n".toList))
          (splitLines ("foo\nbar\nbaz\n".toList))).2.1.getD []) ∨
      find_similar_lines ("fooo\nbar\nbaz\n".toList) ("foo\nbar\nbaz\n".toList) =
        joinNL (((splitLines ("foo\nbar\nbaz\n".toList)).drop
            ((closeMatchState (splitLines ("fooo\nbar\nbaz\n".toList))
              (splitLines ("foo\nbar\nbaz\n".toList))).2.2 - 5)).take
          (min (splitLines ("foo\nbar\nbaz\n".toList)).length
              ((closeMatchState (splitLines ("fooo\nbar\nbaz\n".toList))
                  (splitLines ("foo\nbar\nbaz\n".toList))).2.2 +
                (splitLines ("fooo\nbar\nbaz\n".toList)).length + 5) -
            ((closeMatchState (splitLines ("fooo\nbar\nbaz\n".toList))
              (splitLines ("foo\nbar\nbaz\n".toList))).2.2 - 5)))) := by
  constructor
  · apply close_match_probe.1
    have hsl : splitLines ("zzz\n".toList) = [['z','z','z']] := by decide
    have hcl : splitLines ("a\n".toList) = [['a']] := by decide
    have hM : matchesTotal [['z','z','z']] [['a']] 3 0 1 0 1 = 0 := by decide
    have hR : difflibRatio [['z','z','z']] [['a']] = 0 := by
      simp only [difflibRatio]
      norm_num [hM]
    have hst : closeMatchState [['z','z','z']] [['a']] = (0, none, 0) := by
      simp only [closeMatchState]
      norm_num [List.range_succ, hR]
    rw [hsl, hcl, hst]
    norm_num
  · apply close_match_probe.2.1
    have hsl : splitLines ("fooo\nbar\nbaz\n".toList) = s3SearchLines := by decide
    have hcl : splitLines ("foo\nbar\nbaz\n".toList) = s3ContentLines := by decide
    rw [hsl, hcl, s3_state]
    norm_num

/-- C10: a patch whose computed post-substitution content equals the current
file content is reported as a failure: the file is not written and
`edit_file` returns `(False, close_match_hint)`, exactly as when no match is
found. -/
theorem noop_patch_reported_as_failure (text search repl : List Char)
    (h : replace_part text search repl = some text) :
    edit_file_content text search repl =
      ((false, some (find_similar_lines search text)), text) := by
  simp [edit_file_content, h]

/-- Witness for C10: `search = replace = "a\n"` on file `a\n` — the patch
matches but preserves the content, and is reported as a failure with the
file unchanged. -/
theorem noop_patch_reported_as_failure_witness :
    replace_part ("a\n".toList) ("a\n".toList) ("a\n".toList) = some ("a\n".toList) ∧
    edit_file_content ("a\n".toList) ("a\n".toList) ("a\n".toList) =
      ((false, some (find_similar_lines ("a\n".toList) ("a\n".toList))),
       "a\n".toList) :=
  ⟨by decide, noop_patch_reported_as_failure _ _ _ (by decide)⟩

/-! ## Theorems: C1 (binary-search token packing and scenario S5) -/

/-- One-step unfolding of `findBestLoop` while the loop continues. -/
theorem findBestLoop_cont {α : Type} (to_tree : List α → String)
    (token_count : String → Nat) (max_map_tokens : Nat) (ranked_tags : List α)
    (lo hi middle : Int) (best : Option String) (best_tokens : Nat)
    (hm : lo ≤ hi → lo ≤ middle ∧ middle ≤ hi) (h : lo ≤ hi) :
    findBestLoop to_tree token_count max_map_tokens ranked_tags lo hi middle best
        best_tokens hm =
      (if token_count (to_tree (ranked_tags.take middle.toNat)) < max_map_tokens then
        findBestLoop to_tree token_count max_map_tokens ranked_tags (middle + 1) hi
          ((middle + 1 + hi).fdiv 2)
          (if max_map_tokens > token_count (to_tree (ranked_tags.take middle.toNat)) ∧
              token_count (to_tree (ranked_tags.take middle.toNat)) > best_tokens then
            some (to_tree (ranked_tags.take middle.toNat))
          else best)
          (if max_map_tokens > token_count (to_tree (ranked_tags.take middle.toNat)) ∧
              token_count (to_tree (ranked_tags.take middle.toNat)) > best_tokens then
            token_count (to_tree (ranked_tags.take middle.toNat))
          else best_tokens)
          (fun h' => fdiv_half_between h')
      else
        findBestLoop to_tree token_count max_map_tokens ranked_tags lo (middle - 1)
          ((lo + (middle - 1)).fdiv 2)
          (if max_map_tokens > token_count (to_tree (ranked_tags.take middle.toNat)) ∧
              token_count (to_tree (ranked_tags.take middle.toNat)) > best_tokens then
            some (to_tree (ranked_tags.take middle.toNat))
          else best)
          (if max_map_tokens > token_count (to_tree (ranked_tags.take middle.toNat)) ∧
              token_count (to_tree (ranked_tags.take middle.toNat)) > best_tokens then
            token_count (to_tree (ranked_tags.take middle.toNat))
          else best_tokens)
          (fun h' => fdiv_half_between h')) := by
  rw [findBestLoop]
  rw [dif_pos h]

/-- `findBestLoop` exits with the recorded best once `lo > hi`. -/
theorem findBestLoop_stop {α : Type} (to_tree : List α → String)
    (token_count : String → Nat) (max_map_tokens : Nat) (ranked_tags : List α)
    (lo hi middle : Int) (best : Option String) (best_tokens : Nat)
    (hm : lo ≤ hi → lo ≤ middle ∧ middle ≤ hi) (h : ¬ lo ≤ hi) :
    findBestLoop to_tree token_count max_map_tokens ranked_tags lo hi middle best
      best_tokens hm = best := by
  rw [findBestLoop]
  rw [dif_neg h]

/-- The invariant proof argument does not influence `findBestLoop` (proof
irrelevance), so `middle` may be replaced by an equal value. -/
theorem findBestLoop_middle_congr {α : Type} (to_tree : List α → String)
    (token_count : String → Nat) (max_map_tokens : Nat) (ranked_tags : List α)
    (lo : Int) (best : Option String) (best_tokens : Nat) (hi hi' middle middle' : Int)
    (hh : hi = hi') (h : middle = middle')
    (hm : lo ≤ hi → lo ≤ middle ∧ middle ≤ hi)
    (hm' : lo ≤ hi' → lo ≤ middle' ∧ middle' ≤ hi') :
    findBestLoop to_tree token_count max_map_tokens ranked_tags lo hi middle best
        best_tokens hm =
      findBestLoop to_tree token_count max_map_tokens ranked_tags lo hi' middle' best
        best_tokens hm' := by
  subst hh
  subst h
  rfl

set_option linter.unusedVariables false in
/-- The loop invariant: whenever every recorded best render fits the budget
on entry, any tree the loop returns fits the budget. -/
theorem findBestLoop_sound {α : Type} (to_tree : List α → String)
    (token_count : String → Nat) (max_map_tokens : Nat) (ranked_tags : List α) :
    ∀ (lo hi middle : Int) (best : Option String) (best_tokens : Nat)
      (hm : lo ≤ hi → lo ≤ middle ∧ middle ≤ hi),
      (∀ s, best = some s → token_count s < max_map_tokens) →
      ∀ t, findBestLoop to_tree token_count max_map_tokens ranked_tags lo hi middle
        best best_tokens hm = some t → token_count t < max_map_tokens := by
  intro lo hi middle best best_tokens hm
  induction lo, hi, middle, best, best_tokens, hm using
    findBestLoop.induct to_tree token_count max_map_tokens ranked_tags
  case case1 lo hi middle best btok hm h tree num bb bt hlt ih =>
    intro hinv t hres
    have hlt' : token_count (to_tree (ranked_tags.take middle.toNat)) < max_map_tokens :=
      hlt
    rw [findBestLoop_cont to_tree token_count max_map_tokens ranked_tags lo hi middle
      best btok hm h, if_pos hlt'] at hres
    refine ih ?_ t hres
    intro s hs
    have hs' : (if max_map_tokens > token_count (to_tree (ranked_tags.take middle.toNat)) ∧
        token_count (to_tree (ranked_tags.take middle.toNat)) > btok then
        some (to_tree (ranked_tags.take middle.toNat)) else best) = some s := hs
    by_cases hrec : max_map_tokens > token_count (to_tree (ranked_tags.take middle.toNat)) ∧
        token_count (to_tree (ranked_tags.take middle.toNat)) > btok
    · rw [if_pos hrec] at hs'
      cases hs'
      exact hlt'
    · rw [if_neg hrec] at hs'
      exact hinv s hs'
  case case2 lo hi middle best btok hm h tree num bb bt hlt ih =>
    intro hinv t hres
    have hlt' : ¬ token_count (to_tree (ranked_tags.take middle.toNat)) < max_map_tokens :=
      hlt
    rw [findBestLoop_cont to_tree token_count max_map_tokens ranked_tags lo hi middle
      best btok hm h, if_neg hlt'] at hres
    refine ih ?_ t hres
    intro s hs
    have hs' : (if max_map_tokens > token_count (to_tree (ranked_tags.take middle.toNat)) ∧
        token_count (to_tree (ranked_tags.take middle.toNat)) > btok then
        some (to_tree (ranked_tags.take middle.toNat)) else best) = some s := hs
    have hrec : ¬ (max_map_tokens > token_count (to_tree (ranked_tags.take middle.toNat)) ∧
        token_count (to_tree (ranked_tags.take middle.toNat)) > btok) := fun hc => hlt' hc.1
    rw [if_neg hrec] at hs'
    exact hinv s hs'
  case case3 lo hi middle best btok hm h =>
    intro hinv t hres
    rw [findBestLoop_stop to_tree token_count max_map_tokens ranked_tags lo hi middle
      best btok hm h] at hres
    exact hinv t hres

/-- Scenario S5's ranked tags: 43 of them. -/
def s5Tags : List Nat := List.range 43

/-- Scenario S5's renderer: the render of the top `m` tags is a string of
`m` characters. -/
def s5Render (used : List Nat) : String := String.mk (List.replicate used.length 'x')

/-- Scenario S5's tokenizer: 43 or more tags render at 1100 tokens
(infeasible at the 1024 budget), exactly 42 at 900 (feasible), fewer at
20 per tag (feasible and smaller than 900). -/
def s5TokenCount (s : String) : Nat :=
  if 43 ≤ s.length then 1100 else if s.length = 42 then 900 else 20 * s.length

/-- The S5 loop run: `lo=0, hi=43, middle = min(1024//25, 43) = 40` probes
40 (800 tokens, feasible, recorded), then 42 (900 tokens, recorded), then
43 (1100 tokens, infeasible), then stops with `lo=43 > hi=42`, returning
the 42-tag render. -/
theorem s5_loop_eval : ∀ hm, findBestLoop s5Render s5TokenCount 1024 s5Tags 0 43 40
    none 0 hm = some (s5Render (s5Tags.take 42)) := by
  intro hm
  rw [findBestLoop_cont _ _ _ _ _ _ _ _ _ _ (by decide)]
  rw [show s5TokenCount (s5Render (s5Tags.take (40:Int).toNat)) = 800 from by decide]
  norm_num
  rw [findBestLoop_middle_congr s5Render s5TokenCount 1024 s5Tags 41 _ 800 43 43
    (Int.fdiv 84 2) 42 rfl (by decide) _ (fun hh => by constructor <;> omega)]
  rw [findBestLoop_cont _ _ _ _ _ _ _ _ _ _ (by decide)]
  rw [show s5TokenCount (s5Render (s5Tags.take (42:Int).toNat)) = 900 from by decide]
  norm_num
  rw [findBestLoop_middle_congr s5Render s5TokenCount 1024 s5Tags 43 _ 900 43 43
    (Int.fdiv 86 2) 43 rfl (by decide) _ (fun hh => by constructor <;> omega)]
  rw [findBestLoop_cont _ _ _ _ _ _ _ _ _ _ (by decide)]
  rw [show s5TokenCount (s5Render (s5Tags.take (43:Int).toNat)) = 1100 from by decide]
  norm_num
  rw [findBestLoop_stop _ _ _ _ _ _ _ _ _ _ (by decide)]
  rfl

/-- S5 packing: `find_best_tag_tree` returns the 42-tag render. -/
theorem s5_packing : find_best_tag_tree s5Render s5TokenCount 1024 s5Tags =
    some (s5Render (s5Tags.take 42)) := by
  unfold find_best_tag_tree
  show findBestLoop s5Render s5TokenCount 1024 s5Tags 0 ((s5Tags.length : Nat) : Int)
    ((min (1024 / 25) s5Tags.length : Nat) : Int) none 0 _ = _
  rw [findBestLoop_middle_congr s5Render s5TokenCount 1024 s5Tags 0 none 0
    ((s5Tags.length : Nat) : Int) 43 ((min (1024 / 25) s5Tags.length : Nat) : Int) 40
    (by decide) (by decide) _ (fun hh => by constructor <;> decide)]
  exact s5_loop_eval _

/-- C1: binary-search token packing.  (i) Whatever render
`find_best_tag_tree` returns was recorded only when its token count was
strictly below the budget, so the returned render always fits; (ii) in
scenario S5 — a feasible 42-tag render at 900 tokens, an infeasible 43-tag
render at 1100 tokens, budget 1024 — `get_repo_map` returns the 42-tag
rendering. -/
theorem binary_search_packing :
    (∀ (α : Type) (to_tree : List α → String) (token_count : String → Nat)
      (max_map_tokens : Nat) (ranked_tags : List α) (t : String),
      find_best_tag_tree to_tree token_count max_map_tokens ranked_tags = some t →
      token_count t < max_map_tokens) ∧
    get_repo_map s5Render s5TokenCount 1024 none ["other.py"] false s5Tags =
      some (s5Render (s5Tags.take 42)) := by
  constructor
  · intro α to_tree token_count max_map_tokens ranked_tags t h
    unfold find_best_tag_tree at h
    exact findBestLoop_sound to_tree token_count max_map_tokens ranked_tags _ _ _ _ _ _
      (fun s hs => by cases hs) t h
  · unfold get_repo_map
    rw [s5_packing]
    norm_num
    exact fun hempty => absurd hempty (by decide)

/-- Witness for C1: the S5 run's returned render indeed fits the budget
(it counts 900 < 1024 tokens). -/
theorem binary_search_packing_witness :
    s5TokenCount (s5Render (s5Tags.take 42)) < 1024 ∧
    s5TokenCount (s5Render (s5Tags.take 42)) = 900 :=
  ⟨binary_search_packing.1 Nat s5Render s5TokenCount 1024 s5Tags _ s5_packing,
   by decide⟩

end Motleycoder
